import Mathlib

/-!
Shallow embedding of src/main.py (AniDex-Sync): an AniList → MangaDex
reading-list synchroniser.  Remote services are modelled as explicit
environment records; the title cache is an association list in which the
most recent write shadows older entries (dict assignment observed through
lookup).  Search calls and throttling sleeps are counted explicitly.
-/

/-- Python truthiness of an optional string: None and the empty string are falsy. -/
def pyTruthy : Option String → Bool
  | none => false
  | some s => s ≠ ""

/-- Python str.lower(), character by character. -/
def lowerStr (s : String) : String := ⟨s.data.map Char.toLower⟩

/-- Python s.replace(colon, empty string): remove every colon character. -/
def stripColons (s : String) : String := ⟨s.data.filter (fun c => c ≠ ':')⟩

/-- Python s.split(colon)[0]: the longest prefix without a colon. -/
def beforeColon (s : String) : String := ⟨s.data.takeWhile (fun c => c ≠ ':')⟩

/-- Python s.strip(): drop whitespace from both ends. -/
def pyStrip (s : String) : String :=
  ⟨((s.data.dropWhile Char.isWhitespace).reverse.dropWhile Char.isWhitespace).reverse⟩

/-- mangadex_manga_cache : lowered title ↦ manga id. -/
abbrev Cache := List (String × String)

/-- AniList media.title record (fields romaji, english, native, each possibly null). -/
structure Titles where
  romaji : Option String
  english : Option String
  native : Option String
deriving DecidableEq

/-- anilist_titles.values(): the dict is built from the GraphQL selection
in order romaji, english, native, so values() iterates in that order. -/
def Titles.valuesList (ts : Titles) : List (Option String) :=
  [ts.romaji, ts.english, ts.native]

/-- Lines 115-117: the cache probe loop; skips falsy titles, returns on the
first lowered title present in the cache. -/
def cacheProbe (cache : Cache) : List (Option String) → Option String
  | [] => none
  | none :: rest => cacheProbe cache rest
  | some t :: rest =>
    if t ≠ "" then
      match cache.lookup (lowerStr t) with
      | some v => some v
      | none => cacheProbe cache rest
    else cacheProbe cache rest

/-- Lines 119-124: candidate titles in priority order english, romaji, native,
with falsy entries filtered out. -/
def titles_to_try (ts : Titles) : List String :=
  ([ts.english, ts.romaji, ts.native].filterMap id).filter (fun t => t ≠ "")

/-- Lines 126-131: the four search strategies, in source order. -/
def search_strategies : List (String → String) :=
  [fun t => t,
   fun t => lowerStr t,
   fun t => stripColons t,
   fun t => pyStrip (beforeColon t)]

/-- A search response: ok ↔ the response is truthy with status code 200;
data is the list of result ids (results[0]['id'] is all the code reads). -/
structure SearchReply where
  ok : Bool
  data : List String
deriving DecidableEq

/-- The remote world: search endpoint (title, limit) ↦ reply; follow write
and set-status write outcomes per manga id (truthy-and-200 collapsed to Bool). -/
structure Env where
  search : String → Nat → SearchReply
  followOk : String → Bool
  statusOk : String → String → Bool

/-- Result of one find_mangadex_manga call: returned id, cache afterwards,
number of search requests issued, number of 0.5 s throttling sleeps. -/
structure ResolveOut where
  result : Option String
  cache : Cache
  searches : Nat
  sleeps : Nat
deriving DecidableEq

/-- Lines 143-145: write the found id back under every candidate title, lowered. -/
def writeAll (cache : Cache) (cands : List String) (mid : String) : Cache :=
  cands.foldl (fun c t => (lowerStr t, mid) :: c) cache

/-- Lines 134-148: inner strategy loop for one candidate title. -/
def searchStrats (env : Env) (cands : List String) (cache : Cache) (title : String) :
    List (String → String) → ResolveOut
  | [] => ⟨none, cache, 0, 0⟩
  | f :: rest =>
    match env.search (f title) 5 with
    | ⟨true, r :: _⟩ => ⟨some r, writeAll cache cands r, 1, 0⟩
    | _ =>
      let o := searchStrats env cands cache title rest
      ⟨o.result, o.cache, o.searches + 1, o.sleeps + 1⟩

/-- Lines 133-148: outer loop over the candidate titles. -/
def searchTitles (env : Env) (cands : List String) (cache : Cache) :
    List String → ResolveOut
  | [] => ⟨none, cache, 0, 0⟩
  | t :: rest =>
    let o := searchStrats env cands cache t search_strategies
    match o.result with
    | some _ => o
    | none =>
      let o2 := searchTitles env cands o.cache rest
      ⟨o2.result, o2.cache, o.searches + o2.searches, o.sleeps + o2.sleeps⟩

/-- Lines 114-150: find_mangadex_manga.  Cache probe first; on a miss, the
strategy search over the filtered candidate list.  None models Python None. -/
def find_mangadex_manga (env : Env) (cache : Cache) (ts : Titles) : ResolveOut :=
  match cacheProbe cache ts.valuesList with
  | some v => ⟨some v, cache, 0, 0⟩
  | none => searchTitles env (titles_to_try ts) cache (titles_to_try ts)

/-- Lines 178-181 and 185: the status mapping table with default reading. -/
def status_mapping (s : String) : String :=
  if s = ("CURRENT") then ("reading")
  else if s = ("COMPLETED") then ("completed")
  else if s = ("PAUSED") then ("on_hold")
  else if s = ("DROPPED") then ("dropped")
  else if s = ("PLANNING") then ("plan_to_read")
  else ("reading")

/-- One remote write issued by the status updater. -/
inductive Write where
  | follow (mangaId : String)
  | setStatus (mangaId : String) (payload : String)
deriving DecidableEq

/-- Lines 177-188: update_mangadex_reading_status.  Returns the Bool result
and the ordered trace of writes issued. -/
def update_mangadex_reading_status (env : Env) (mangaId : String) (status : String) :
    Bool × List Write :=
  if env.followOk mangaId then
    let payload := status_mapping status
    (env.statusOk mangaId payload, [Write.follow mangaId, Write.setStatus mangaId payload])
  else
    (false, [Write.follow mangaId])

/-- One AniList entry: media id, titles, status string, progress. -/
structure Entry where
  mediaId : Nat
  titles : Titles
  status : String
  progress : Nat
deriving DecidableEq

/-- Line 214: primary_title = english or romaji or native under Python or. -/
def primary_title (ts : Titles) : Option String :=
  if pyTruthy ts.english then ts.english
  else if pyTruthy ts.romaji then ts.romaji
  else ts.native

/-- Per-entry outcome.  Skipped exists in the data model (skipped_manga
counter) but is shown never to be produced. -/
inductive Outcome where
  | Added
  | Resynced
  | Skipped
  | Failed
deriving DecidableEq

/-- Run state threaded through dispatch: the pre-run id set and the shared
title cache. -/
structure SyncSt where
  existingIds : List String
  cache : Cache
deriving DecidableEq

/-- Lines 250-276: process_manga for one entry.  Returns its outcome and
the state afterwards. -/
def process_manga (env : Env) (entry : Entry) (st : SyncSt) : Outcome × SyncSt :=
  let o := find_mangadex_manga env st.cache entry.titles
  match o.result with
  | none => (Outcome.Failed, { st with cache := o.cache })
  | some mangadexId =>
    if (update_mangadex_reading_status env mangadexId entry.status).1 then
      if mangadexId ∈ st.existingIds then
        (Outcome.Resynced, { st with cache := o.cache })
      else
        (Outcome.Added, { st with cache := o.cache })
    else
      (Outcome.Failed, { st with cache := o.cache })

/-- The run summary counters of sync_manga_list (skipped_manga is the
counter at line 204; failed_manga collects primary titles in arrival order). -/
structure Summary where
  added : Nat
  resynced : Nat
  skipped : Nat
  failedTitles : List (Option String)
deriving DecidableEq

def init_summary : Summary := ⟨0, 0, 0, []⟩

/-- Lines 265-276: how one outcome updates the counters. -/
def record_outcome (s : Summary) (entry : Entry) (oc : Outcome) : Summary :=
  match oc with
  | Outcome.Added => { s with added := s.added + 1 }
  | Outcome.Resynced => { s with resynced := s.resynced + 1 }
  | Outcome.Skipped => { s with skipped := s.skipped + 1 }
  | Outcome.Failed => { s with failedTitles := s.failedTitles ++ [primary_title entry.titles] }

/-- Lines 209-232: dispatch of every entry (sequential embedding of the
thread-pool fan-out) folding outcomes into the summary. -/
def dispatch_loop (env : Env) : List Entry → SyncSt → Summary → Summary × SyncSt
  | [], st, s => (s, st)
  | e :: rest, st, s =>
    dispatch_loop env rest (process_manga env e st).2
      (record_outcome s e (process_manga env e st).1)

/-- Observable outcome of one sync_manga_list call. -/
structure RunOutput where
  reportedNoSource : Bool
  dispatched : Nat
  summary : Option Summary
deriving DecidableEq

/-- Lines 190-248: sync_manga_list.  An empty AniList fetch prints the
report and returns before any entry is dispatched. -/
def sync_manga_list (env : Env) (sourceEntries : List Entry) (st : SyncSt) : RunOutput :=
  if sourceEntries.isEmpty then ⟨true, 0, none⟩
  else
    let (s, _) := dispatch_loop env sourceEntries st init_summary
    ⟨false, sourceEntries.length, some s⟩

/-- Lines 278-285: the __main__ block.  Missing ANILIST_USERNAME exits 1;
otherwise sync_manga_list runs to completion and the script exits 0. -/
def script_main (username : Option String) (fetchSource : String → List Entry)
    (env : Env) (st : SyncSt) : Nat × Option RunOutput :=
  match username with
  | none => (1, none)
  | some u => (0, some (sync_manga_list env (fetchSource u) st))

/-- One item of a followed-manga page: manga.get('id') and the values of
attributes.title (empty list models a missing or empty title dict). -/
structure PageItem where
  id : Option String
  titles : List String
deriving DecidableEq

/-- Lines 53-60: processing of one page item into (id set, cache). -/
def process_item (acc : List String × Cache) (it : PageItem) : List String × Cache :=
  match it.id with
  | none => acc
  | some mid =>
    if mid ≠ "" ∧ it.titles ≠ [] then
      let ids := if mid ∈ acc.1 then acc.1 else mid :: acc.1
      let c := it.titles.foldl (fun c t => if t ≠ "" then (lowerStr t, mid) :: c else c) acc.2
      (ids, c)
    else acc

/-- Lines 37-67: get_current_mangadex_list.  The remote pager is the list
of successive responses to offsets 0, 100, 200, ... (none models a falsy or
non-200 response); an exhausted response list also stops the loop. -/
def get_current_mangadex_list (pages : List (Option (List PageItem)))
    (acc : List String × Cache) : List String × Cache :=
  match pages with
  | [] => acc
  | none :: _ => acc
  | some data :: rest =>
    if data.isEmpty then acc
    else
      let acc2 := data.foldl process_item acc
      if data.length < 100 then acc2
      else get_current_mangadex_list rest acc2

/-- Modelled from the spec (§4.3): candidate list from english, romaji,
native, in that priority order, omitting absent ones. -/
def spec_candidates (ts : Titles) : List String :=
  ([ts.english, ts.romaji, ts.native].filterMap (fun o => o)).filter (fun t => ¬ t = "")

/-- Modelled from the spec (§4.3): the four transforms in fixed order,
identity, lower-case, strip all colons, substring before the first colon
trimmed. -/
def spec_transforms : List (String → String) :=
  [id,
   fun t => lowerStr t,
   fun t => stripColons t,
   fun t => pyStrip (beforeColon t)]

/-- Modelled from the spec (§4.3): all search strings, candidate-major,
transform-minor. -/
def spec_queries (ts : Titles) : List String :=
  (spec_candidates ts).flatMap (fun t => spec_transforms.map (fun f => f t))

/-- Modelled from the spec (§4.3): scan the queries in order and return the
first result id of the first query whose result list is non-empty. -/
def first_result (env : Env) : List String → Option String
  | [] => none
  | q :: rest =>
    match env.search q 5 with
    | ⟨true, r :: _⟩ => some r
    | _ => first_result env rest

/-- Fixture: a remote world whose every call fails. -/
def envIdle : Env := ⟨fun _ _ => ⟨false, []⟩, fun _ => false, fun _ _ => false⟩

/-- Fixture: a remote world where every search hits id X and writes succeed. -/
def envHit : Env := ⟨fun _ _ => ⟨true, [("X")]⟩, fun _ => true, fun _ _ => true⟩

/-- Fixture: a remote world answering only the lowered query naruto. -/
def envNaruto : Env :=
  ⟨fun q _ => if q = ("naruto") then ⟨true, [("NID")]⟩ else ⟨false, []⟩,
   fun _ => true, fun _ _ => true⟩

/-- Fixture: an AniList fetch that yields no entries. -/
def fetchEmpty : String → List Entry := fun _ => []

/-- Fixture: empty run state. -/
def st0 : SyncSt := ⟨[], []⟩

/-- Fixture: one AniList entry titled Naruto (english only). -/
def entryW : Entry := ⟨1, ⟨none, some ("Naruto"), none⟩, ("CURRENT"), 0⟩

/-- Fixture: a short followed-manga page with one item. -/
def pageA : List PageItem := [⟨some ("M"), [("T1"), (""), ("T2")]⟩]

/-- Fixture: a well-formed page item. -/
def itemB : PageItem := ⟨some ("M"), [("T")]⟩

/-- Fixture: a page item with a missing id. -/
def itemC : PageItem := ⟨none, [("T")]⟩

/-- Fixture: a full page of 100 items. -/
def bigPage : List PageItem := List.replicate 100 itemB

/-- Fixture: empty fetcher accumulator. -/
def acc0 : List String × Cache := ([], [])

/-! ## Helper lemmas -/

lemma string_empty_mk : ("" : String) = ⟨[]⟩ := rfl

lemma lowerStr_ne_empty {s : String} (h : s ≠ "") : lowerStr s ≠ "" := by
  obtain ⟨l⟩ := s
  cases l with
  | nil => exact absurd rfl h
  | cons c cs =>
    intro hc
    have hd := congrArg String.data hc
    rw [string_empty_mk] at hd
    exact absurd hd (List.cons_ne_nil _ _)

lemma lookup_cons (a k v : String) (l : Cache) :
    List.lookup a ((k, v) :: l) = if a = k then some v else List.lookup a l := by
  cases h : (a == k) with
  | true =>
    have ha : a = k := by simpa using h
    simp [List.lookup, h, ha]
  | false =>
    have ha : ¬ a = k := by simpa using h
    simp [List.lookup, h, ha]

lemma mem_of_lookup (k v : String) : ∀ l : Cache, l.lookup k = some v → (k, v) ∈ l := by
  intro l
  induction l with
  | nil => intro h; cases h
  | cons p rest ih =>
    intro h
    obtain ⟨pk, pv⟩ := p
    rw [lookup_cons] at h
    by_cases hk : k = pk
    · rw [if_pos hk] at h
      obtain rfl : pv = v := by injection h
      subst hk
      exact List.mem_cons_self _ _
    · rw [if_neg hk] at h
      exact List.mem_cons_of_mem _ (ih h)

lemma lookup_writeAll_keep (mid : String) :
    ∀ (cands : List String) (c : Cache) (k : String),
      c.lookup k = some mid → (writeAll c cands mid).lookup k = some mid := by
  intro cands
  induction cands with
  | nil => intro c k h; simpa [writeAll] using h
  | cons t ts ih =>
    intro c k h
    show (writeAll ((lowerStr t, mid) :: c) ts mid).lookup k = some mid
    apply ih
    rw [lookup_cons]
    by_cases hk : k = lowerStr t <;> simp [hk, h]

lemma lookup_writeAll_mem (mid : String) :
    ∀ (cands : List String) (c : Cache) (t : String),
      t ∈ cands → (writeAll c cands mid).lookup (lowerStr t) = some mid := by
  intro cands
  induction cands with
  | nil => intro c t h; exact absurd h (List.not_mem_nil t)
  | cons x xs ih =>
    intro c t h
    rcases List.mem_cons.mp h with h1 | h2
    · subst h1
      show (writeAll ((lowerStr t, mid) :: c) xs mid).lookup (lowerStr t) = some mid
      apply lookup_writeAll_keep
      rw [lookup_cons]
      simp
    · exact ih ((lowerStr x, mid) :: c) t h2

lemma searchStrats_result (env : Env) (cands : List String) (cache : Cache) (title : String) :
    ∀ fs : List (String → String),
      (searchStrats env cands cache title fs).result =
        first_result env (fs.map (fun f => f title)) := by
  intro fs
  induction fs with
  | nil => rfl
  | cons f rest ih =>
    simp only [searchStrats, List.map_cons, first_result]
    cases h : env.search (f title) 5 with
    | mk ok data => cases ok <;> cases data <;> simp [h, ih]

lemma searchStrats_cache_of_none (env : Env) (cands : List String) (cache : Cache)
    (title : String) :
    ∀ fs : List (String → String),
      (searchStrats env cands cache title fs).result = none →
      (searchStrats env cands cache title fs).cache = cache := by
  intro fs
  induction fs with
  | nil => intro _; rfl
  | cons f rest ih =>
    intro hres
    simp only [searchStrats] at hres ⊢
    cases h : env.search (f title) 5 with
    | mk ok data =>
      cases ok <;> cases data <;> simp [h] at hres ⊢ <;> exact ih hres

lemma searchStrats_cache_of_some (env : Env) (cands : List String) (cache : Cache)
    (title : String) :
    ∀ (fs : List (String → String)) (mid : String),
      (searchStrats env cands cache title fs).result = some mid →
      (searchStrats env cands cache title fs).cache = writeAll cache cands mid := by
  intro fs
  induction fs with
  | nil => intro mid h; cases h
  | cons f rest ih =>
    intro mid hres
    simp only [searchStrats] at hres ⊢
    cases h : env.search (f title) 5 with
    | mk ok data =>
      cases ok with
      | false => cases data <;> simp [h] at hres ⊢ <;> exact ih mid hres
      | true =>
        cases data with
        | nil => simp [h] at hres ⊢; exact ih mid hres
        | cons r rs =>
          simp [h] at hres ⊢
          rw [hres]

lemma first_result_append (env : Env) : ∀ l1 l2 : List String,
    first_result env (l1 ++ l2) =
      match first_result env l1 with
      | some r => some r
      | none => first_result env l2 := by
  intro l1
  induction l1 with
  | nil => intro l2; rfl
  | cons q qs ih =>
    intro l2
    simp only [List.cons_append, first_result]
    cases h : env.search q 5 with
    | mk ok data => cases ok <;> cases data <;> simp [h, ih]

lemma first_result_eq_none_iff (env : Env) : ∀ l : List String,
    first_result env l = none ↔
      ∀ q ∈ l, (env.search q 5).ok = false ∨ (env.search q 5).data = [] := by
  intro l
  induction l with
  | nil => simp [first_result]
  | cons q qs ih =>
    simp only [first_result]
    cases h : env.search q 5 with
    | mk ok data => cases ok <;> cases data <;> simp [h, ih]

lemma searchTitles_result (env : Env) (cands : List String) :
    ∀ (l : List String) (cache : Cache),
      (searchTitles env cands cache l).result =
        first_result env (l.flatMap (fun t => search_strategies.map (fun f => f t))) := by
  intro l
  induction l with
  | nil => intro cache; rfl
  | cons t rest ih =>
    intro cache
    have hmap := searchStrats_result env cands cache t search_strategies
    simp only [searchTitles, List.flatMap_cons]
    rw [first_result_append]
    cases h : (searchStrats env cands cache t search_strategies).result with
    | some r =>
      rw [h] at hmap
      simp [h, ← hmap]
    | none =>
      rw [h] at hmap
      have hc := searchStrats_cache_of_none env cands cache t search_strategies h
      simp [h, ← hmap, hc, ih cache]

lemma searchTitles_cache_of_some (env : Env) (cands : List String) :
    ∀ (l : List String) (cache : Cache) (mid : String),
      (searchTitles env cands cache l).result = some mid →
      (searchTitles env cands cache l).cache = writeAll cache cands mid := by
  intro l
  induction l with
  | nil => intro cache mid h; cases h
  | cons t rest ih =>
    intro cache mid hres
    simp only [searchTitles] at hres ⊢
    cases h : (searchStrats env cands cache t search_strategies).result with
    | some r =>
      simp [h] at hres ⊢
      subst hres
      exact searchStrats_cache_of_some env cands cache t search_strategies _ h
    | none =>
      have hc := searchStrats_cache_of_none env cands cache t search_strategies h
      simp [h, hc] at hres ⊢
      exact ih cache mid hres

lemma find_of_miss (env : Env) (cache : Cache) (ts : Titles)
    (hmiss : cacheProbe cache ts.valuesList = none) :
    find_mangadex_manga env cache ts =
      searchTitles env (titles_to_try ts) cache (titles_to_try ts) := by
  simp [find_mangadex_manga, hmiss]

lemma find_of_hit (env : Env) (cache : Cache) (ts : Titles) (v : String)
    (hhit : cacheProbe cache ts.valuesList = some v) :
    find_mangadex_manga env cache ts = ⟨some v, cache, 0, 0⟩ := by
  simp [find_mangadex_manga, hhit]

lemma cacheProbe_hit (cache : Cache) (hwf : ∀ p ∈ cache, p.1 ≠ "") :
    ∀ l : List (Option String),
      (∃ s : String, some s ∈ l ∧ (cache.lookup (lowerStr s)).isSome) →
      ∃ s mid, some s ∈ l ∧ cache.lookup (lowerStr s) = some mid ∧
        cacheProbe cache l = some mid := by
  intro l
  induction l with
  | nil =>
    rintro ⟨s, hs, _⟩
    exact absurd hs (List.not_mem_nil _)
  | cons o rest ih =>
    rintro ⟨s, hs, hsome⟩
    cases o with
    | none =>
      have hs2 : some s ∈ rest := by
        rcases List.mem_cons.mp hs with h | h
        · exact absurd h (by simp)
        · exact h
      obtain ⟨s2, mid, h1, h2, h3⟩ := ih ⟨s, hs2, hsome⟩
      exact ⟨s2, mid, List.mem_cons_of_mem _ h1, h2, by simpa [cacheProbe] using h3⟩
    | some t =>
      by_cases ht : t = ""
      · subst ht
        have hs2 : some s ∈ rest := by
          rcases List.mem_cons.mp hs with h | h
          · exfalso
            obtain rfl : s = "" := by injection h
            obtain ⟨v, hv⟩ := Option.isSome_iff_exists.mp hsome
            have hmem := mem_of_lookup _ _ _ hv
            exact hwf _ hmem rfl
          · exact h
        obtain ⟨s2, mid, h1, h2, h3⟩ := ih ⟨s, hs2, hsome⟩
        exact ⟨s2, mid, List.mem_cons_of_mem _ h1, h2, by simpa [cacheProbe] using h3⟩
      · cases hlook : cache.lookup (lowerStr t) with
        | some v =>
          exact ⟨t, v, List.mem_cons_self _ _, hlook, by simp [cacheProbe, ht, hlook]⟩
        | none =>
          have hs2 : some s ∈ rest := by
            rcases List.mem_cons.mp hs with h | h
            · exfalso
              obtain rfl : s = t := by injection h
              rw [hlook] at hsome
              exact absurd hsome (by simp)
            · exact h
          obtain ⟨s2, mid, h1, h2, h3⟩ := ih ⟨s, hs2, hsome⟩
          exact ⟨s2, mid, List.mem_cons_of_mem _ h1, h2,
            by simp [cacheProbe, ht, hlook, h3]⟩

lemma process_frame (env : Env) (e : Entry) (st : SyncSt) :
    (process_manga env e st).2.existingIds = st.existingIds := by
  simp only [process_manga]
  cases h : (find_mangadex_manga env st.cache e.titles).result with
  | none => rfl
  | some mid =>
    cases hb : (update_mangadex_reading_status env mid e.status).1 with
    | false => simp [hb]
    | true => by_cases hm : mid ∈ st.existingIds <;> simp [hb, hm]

lemma process_not_skipped (env : Env) (e : Entry) (st : SyncSt) :
    (process_manga env e st).1 ≠ Outcome.Skipped := by
  simp only [process_manga]
  cases h : (find_mangadex_manga env st.cache e.titles).result with
  | none => simp
  | some mid =>
    cases hb : (update_mangadex_reading_status env mid e.status).1 with
    | false => simp [hb]
    | true => by_cases hm : mid ∈ st.existingIds <;> simp [hb, hm]

lemma dispatch_frame (env : Env) : ∀ (entries : List Entry) (st : SyncSt) (s : Summary),
    (dispatch_loop env entries st s).2.existingIds = st.existingIds := by
  intro entries
  induction entries with
  | nil => intro st s; rfl
  | cons e rest ih =>
    intro st s
    simp only [dispatch_loop]
    rw [ih]
    exact process_frame env e st

lemma dispatch_counts (env : Env) : ∀ (entries : List Entry) (st : SyncSt) (s : Summary),
    ((dispatch_loop env entries st s).1).added + ((dispatch_loop env entries st s).1).resynced +
      ((dispatch_loop env entries st s).1).failedTitles.length =
      s.added + s.resynced + s.failedTitles.length + entries.length ∧
    ((dispatch_loop env entries st s).1).skipped = s.skipped := by
  intro entries
  induction entries with
  | nil => intro st s; simp [dispatch_loop]
  | cons e rest ih =>
    intro st s
    simp only [dispatch_loop]
    cases hoc : (process_manga env e st).1 with
    | Skipped => exact absurd hoc (process_not_skipped env e st)
    | Added =>
      obtain ⟨h1, h2⟩ := ih (process_manga env e st).2 (record_outcome s e Outcome.Added)
      refine ⟨by rw [h1]; simp [record_outcome]; omega, by rw [h2]; simp [record_outcome]⟩
    | Resynced =>
      obtain ⟨h1, h2⟩ := ih (process_manga env e st).2 (record_outcome s e Outcome.Resynced)
      refine ⟨by rw [h1]; simp [record_outcome]; omega, by rw [h2]; simp [record_outcome]⟩
    | Failed =>
      obtain ⟨h1, h2⟩ := ih (process_manga env e st).2 (record_outcome s e Outcome.Failed)
      refine ⟨by rw [h1]; simp [record_outcome]; omega, by rw [h2]; simp [record_outcome]⟩

lemma pyTruthy_false {x : Option String} (h : pyTruthy x = false) : x = none ∨ x = some "" := by
  cases x with
  | none => exact Or.inl rfl
  | some s =>
    right
    simp [pyTruthy] at h
    rw [h]

lemma lookup_itemfold_keep (mid : String) :
    ∀ (titles : List String) (c : Cache) (k : String),
      c.lookup k = some mid →
      (titles.foldl (fun c u => if u ≠ "" then (lowerStr u, mid) :: c else c) c).lookup k
        = some mid := by
  intro titles
  induction titles with
  | nil => intro c k h; simpa using h
  | cons t ts ih =>
    intro c k h
    rw [List.foldl_cons]
    apply ih
    by_cases ht : t = ""
    · simp [ht, h]
    · rw [if_pos ht, lookup_cons]
      by_cases hk : k = lowerStr t <;> simp [hk, h]

lemma lookup_itemfold_mem (mid : String) :
    ∀ (titles : List String) (c : Cache) (t : String),
      t ∈ titles → t ≠ "" →
      (titles.foldl (fun c u => if u ≠ "" then (lowerStr u, mid) :: c else c) c).lookup
        (lowerStr t) = some mid := by
  intro titles
  induction titles with
  | nil => intro c t h _; exact absurd h (List.not_mem_nil _)
  | cons x xs ih =>
    intro c t h ht
    rw [List.foldl_cons]
    rcases List.mem_cons.mp h with h1 | h2
    · subst h1
      apply lookup_itemfold_keep
      rw [if_pos ht, lookup_cons]
      simp
    · exact ih _ t h2 ht

/-! ## Claim theorems -/

/-- C10: if all three title fields are absent or empty, find_mangadex_manga
returns None immediately: the cache is untouched and no search request or
throttling sleep happens. -/
theorem C10_all_empty (env : Env) (cache : Cache) (ts : Titles)
    (h1 : pyTruthy ts.romaji = false) (h2 : pyTruthy ts.english = false)
    (h3 : pyTruthy ts.native = false) :
    find_mangadex_manga env cache ts = ⟨none, cache, 0, 0⟩ := by
  obtain ⟨r, e, n⟩ := ts
  rcases pyTruthy_false h1 with hr | hr <;> rcases pyTruthy_false h2 with he | he <;>
    rcases pyTruthy_false h3 with hn | hn <;>
      subst hr <;> subst he <;> subst hn <;>
        simp [find_mangadex_manga, cacheProbe, Titles.valuesList, titles_to_try, searchTitles]

/-- C10 witness: a concrete all-empty title record resolves to None with
zero searches and zero sleeps. -/
theorem C10_witness :
    (pyTruthy (Titles.mk none (some ("")) none).romaji = false) ∧
    (pyTruthy (Titles.mk none (some ("")) none).english = false) ∧
    (pyTruthy (Titles.mk none (some ("")) none).native = false) ∧
    find_mangadex_manga envIdle [(("k"), ("V"))] (Titles.mk none (some ("")) none) =
      ⟨none, [(("k"), ("V"))], 0, 0⟩ :=
  ⟨rfl, by decide, rfl,
    C10_all_empty envIdle [(("k"), ("V"))] (Titles.mk none (some ("")) none) rfl (by decide) rfl⟩

/-- C1 counterexample: with a source fetch yielding zero entries, the run
aborts before dispatch and reports, but the process exit code is 0, not
non-zero as the claim states. -/
theorem C1_counterexample :
    fetchEmpty ("user") = [] ∧
    script_main (some ("user")) fetchEmpty envIdle st0 = (0, some ⟨true, 0, none⟩) :=
  ⟨rfl, rfl⟩

/-- C1 (amended): if the source fetch yields zero entries the run reports
the condition and aborts before dispatching any per-entry work, but
sync_manga_list returns normally and the process exits with code 0; the
exit code 1 occurs only for a missing source username. -/
theorem C1_empty_source_aborts (env : Env) (fetchSource : String → List Entry)
    (u : String) (st : SyncSt) (h : fetchSource u = []) :
    sync_manga_list env (fetchSource u) st = ⟨true, 0, none⟩ ∧
    script_main (some u) fetchSource env st = (0, some ⟨true, 0, none⟩) ∧
    script_main none fetchSource env st = (1, none) := by
  have hs : sync_manga_list env (fetchSource u) st = ⟨true, 0, none⟩ := by
    rw [h]
    rfl
  exact ⟨hs, by simp [script_main, hs], rfl⟩

/-- C1 witness: the amended statement at a concrete empty fetch. -/
theorem C1_witness :
    fetchEmpty ("u") = [] ∧
    sync_manga_list envIdle (fetchEmpty ("u")) st0 = ⟨true, 0, none⟩ ∧
    script_main (some ("u")) fetchEmpty envIdle st0 = (0, some ⟨true, 0, none⟩) ∧
    script_main none fetchEmpty envIdle st0 = (1, none) := by
  have h := C1_empty_source_aborts envIdle fetchEmpty ("u") st0 rfl
  exact ⟨rfl, h.1, h.2.1, h.2.2⟩

/-- C8 counterexample: a resolution that succeeds via the cache probe does
not write the found id back: with cache a ↦ X and variants romaji B,
english A, resolve returns X but b is still missing from the cache. -/
theorem C8_counterexample :
    (some ("B") ∈ (Titles.mk (some ("B")) (some ("A")) none).valuesList) ∧
    (find_mangadex_manga envIdle [(("a"), ("X"))]
      (Titles.mk (some ("B")) (some ("A")) none)).result = some ("X") ∧
    ((find_mangadex_manga envIdle [(("a"), ("X"))]
      (Titles.mk (some ("B")) (some ("A")) none)).cache).lookup (lowerStr ("B")) = none := by
  decide

/-- C8 (amended): a targetId discovered via remote search is written back
under all candidate titles; a cache-probe hit returns with the cache
unchanged (no write-back on that path). -/
theorem C8_writeback_amended (env : Env) (cache : Cache) (ts : Titles) :
    (∀ mid : String, cacheProbe cache ts.valuesList = none →
      (find_mangadex_manga env cache ts).result = some mid →
      ∀ t ∈ titles_to_try ts,
        ((find_mangadex_manga env cache ts).cache).lookup (lowerStr t) = some mid) ∧
    (∀ v : String, cacheProbe cache ts.valuesList = some v →
      (find_mangadex_manga env cache ts).cache = cache) := by
  constructor
  · intro mid hmiss hres t ht
    rw [find_of_miss env cache ts hmiss] at hres ⊢
    rw [searchTitles_cache_of_some env (titles_to_try ts) (titles_to_try ts) cache mid hres]
    exact lookup_writeAll_mem mid (titles_to_try ts) cache t ht
  · intro v hv
    rw [find_of_hit env cache ts v hv]

/-- C8 witness: both amended branches at concrete inputs. -/
theorem C8_witness :
    (cacheProbe [] (Titles.mk (some ("Roma")) (some ("Naru")) none).valuesList = none) ∧
    ((find_mangadex_manga envHit []
        (Titles.mk (some ("Roma")) (some ("Naru")) none)).cache).lookup
      (lowerStr ("Roma")) = some ("X") ∧
    (find_mangadex_manga envHit [(("naru"), ("Y"))]
        (Titles.mk (some ("Roma")) (some ("Naru")) none)).cache = [(("naru"), ("Y"))] := by
  have h := C8_writeback_amended envHit [] (Titles.mk (some ("Roma")) (some ("Naru")) none)
  have h2 := C8_writeback_amended envHit [(("naru"), ("Y"))]
    (Titles.mk (some ("Roma")) (some ("Naru")) none)
  refine ⟨by decide, ?_, ?_⟩
  · exact h.1 ("X") (by decide) (by decide) ("Roma") (by decide)
  · exact h2.2 ("Y") (by decide)

/-- C3: if some present title variant, case-folded, is a key of the cache
(whose keys are never empty), then resolve returns that cached id and
issues zero remote search calls and zero sleeps. -/
theorem C3_cache_short_circuit (env : Env) (cache : Cache) (ts : Titles)
    (hwf : ∀ p ∈ cache, p.1 ≠ "")
    (hhit : ∃ s : String, some s ∈ ts.valuesList ∧ (cache.lookup (lowerStr s)).isSome) :
    (∃ s mid, some s ∈ ts.valuesList ∧ cache.lookup (lowerStr s) = some mid ∧
      (find_mangadex_manga env cache ts).result = some mid) ∧
    (find_mangadex_manga env cache ts).searches = 0 ∧
    (find_mangadex_manga env cache ts).sleeps = 0 := by
  obtain ⟨s, mid, h1, h2, h3⟩ := cacheProbe_hit cache hwf ts.valuesList hhit
  rw [find_of_hit env cache ts mid h3]
  exact ⟨⟨s, mid, h1, h2, rfl⟩, rfl, rfl⟩

/-- C3 witness: a concrete cached title short-circuits with zero searches. -/
theorem C3_witness :
    (∀ p ∈ ([(("naruto"), ("NID"))] : Cache), p.1 ≠ "") ∧
    (∃ s mid, some s ∈ (Titles.mk none (some ("Naruto")) none).valuesList ∧
      (([(("naruto"), ("NID"))] : Cache).lookup (lowerStr s)) = some mid ∧
      (find_mangadex_manga envIdle [(("naruto"), ("NID"))]
        (Titles.mk none (some ("Naruto")) none)).result = some mid) ∧
    (find_mangadex_manga envIdle [(("naruto"), ("NID"))]
      (Titles.mk none (some ("Naruto")) none)).searches = 0 := by
  have h := C3_cache_short_circuit envIdle [(("naruto"), ("NID"))]
    (Titles.mk none (some ("Naruto")) none) (by decide) ⟨("Naruto"), by decide, by decide⟩
  exact ⟨by decide, h.1, h.2.1⟩

/-- C4: the status updater issues the follow write first, issues the
set-status write with the mapped status only when the follow succeeds,
returns true iff both writes succeed, and the mapping table is
CURRENT↦reading, COMPLETED↦completed, PAUSED↦on_hold, DROPPED↦dropped,
PLANNING↦plan_to_read with default reading. -/
theorem C4_status_updater (env : Env) (mid s : String) :
    ((update_mangadex_reading_status env mid s).2).head? = some (Write.follow mid) ∧
    (env.followOk mid = true →
      (update_mangadex_reading_status env mid s).2 =
        [Write.follow mid, Write.setStatus mid (status_mapping s)]) ∧
    (env.followOk mid = false →
      (update_mangadex_reading_status env mid s).2 = [Write.follow mid]) ∧
    ((update_mangadex_reading_status env mid s).1 = true ↔
      env.followOk mid = true ∧ env.statusOk mid (status_mapping s) = true) ∧
    status_mapping ("CURRENT") = ("reading") ∧
    status_mapping ("COMPLETED") = ("completed") ∧
    status_mapping ("PAUSED") = ("on_hold") ∧
    status_mapping ("DROPPED") = ("dropped") ∧
    status_mapping ("PLANNING") = ("plan_to_read") ∧
    (s ∉ [("CURRENT"), ("COMPLETED"), ("PAUSED"), ("DROPPED"), ("PLANNING")] →
      status_mapping s = ("reading")) := by
  refine ⟨?_, ?_, ?_, ?_, by decide, by decide, by decide, by decide, by decide, ?_⟩
  · cases hb : env.followOk mid <;> simp [update_mangadex_reading_status, hb]
  · intro hb; simp [update_mangadex_reading_status, hb]
  · intro hb; simp [update_mangadex_reading_status, hb]
  · cases hb : env.followOk mid <;> simp [update_mangadex_reading_status, hb]
  · intro hs
    simp at hs
    obtain ⟨n1, n2, n3, n4, n5⟩ := hs
    simp [status_mapping, n1, n2, n3, n4, n5]

/-- C4 witness: both write outcomes and the default mapping at concrete
inputs. -/
theorem C4_witness :
    ((update_mangadex_reading_status envHit ("m") ("PAUSED")).2 =
      [Write.follow ("m"), Write.setStatus ("m") ("on_hold")]) ∧
    ((update_mangadex_reading_status envHit ("m") ("PAUSED")).1 = true) ∧
    ((update_mangadex_reading_status envIdle ("m") ("CURRENT")).2 = [Write.follow ("m")]) ∧
    ((update_mangadex_reading_status envIdle ("m") ("CURRENT")).1 = false) ∧
    (status_mapping ("XYZ") = ("reading")) := by
  have hT := C4_status_updater envHit ("m") ("PAUSED")
  have hF := C4_status_updater envIdle ("m") ("CURRENT")
  refine ⟨?_, ?_, ?_, by decide, ?_⟩
  · exact (hT.2.1 (by decide)).trans (by decide)
  · exact (hT.2.2.2.1).mpr ⟨by decide, by decide⟩
  · exact hF.2.2.1 (by decide)
  · exact (C4_status_updater envIdle ("m") ("XYZ")).2.2.2.2.2.2.2.2.2 (by decide)

/-- C5: when resolution and the status write both succeed, the outcome is
Added iff the resolved id was absent from the pre-run id set, Resynced iff
present, and the id set is never mutated, per entry or across the whole
dispatch. -/
theorem C5_classification (env : Env) (entry : Entry) (st : SyncSt) (mid : String)
    (hres : (find_mangadex_manga env st.cache entry.titles).result = some mid)
    (hupd : (update_mangadex_reading_status env mid entry.status).1 = true) :
    ((process_manga env entry st).1 = Outcome.Added ↔ mid ∉ st.existingIds) ∧
    ((process_manga env entry st).1 = Outcome.Resynced ↔ mid ∈ st.existingIds) ∧
    (process_manga env entry st).2.existingIds = st.existingIds ∧
    (∀ (entries : List Entry) (s : Summary),
      (dispatch_loop env entries st s).2.existingIds = st.existingIds) := by
  have hp : (process_manga env entry st).1 =
      if mid ∈ st.existingIds then Outcome.Resynced else Outcome.Added := by
    simp only [process_manga, hres, hupd]
    simp only [if_true]
    by_cases hm : mid ∈ st.existingIds <;> simp [hm]
  refine ⟨?_, ?_, process_frame env entry st, fun entries s => dispatch_frame env entries st s⟩
  · rw [hp]; by_cases hm : mid ∈ st.existingIds <;> simp [hm]
  · rw [hp]; by_cases hm : mid ∈ st.existingIds <;> simp [hm]

/-- C5 witness: a concrete entry resolving to a fresh id is classified
Added and leaves the id set unchanged. -/
theorem C5_witness :
    ((find_mangadex_manga envNaruto st0.cache entryW.titles).result = some ("NID")) ∧
    ((update_mangadex_reading_status envNaruto ("NID") entryW.status).1 = true) ∧
    ((process_manga envNaruto entryW st0).1 = Outcome.Added) ∧
    ((process_manga envNaruto entryW st0).2.existingIds = st0.existingIds) := by
  have h := C5_classification envNaruto entryW st0 ("NID") (by decide) (by decide)
  exact ⟨by decide, by decide, h.1.mpr (by decide), h.2.2.1⟩

/-- C9: every processed entry yields Added, Resynced or Failed (never
Skipped), and over a whole dispatch added + resynced + failed equals the
number of source entries while the skipped counter stays 0. -/
theorem C9_outcome_partition :
    (∀ (env : Env) (e : Entry) (st : SyncSt),
      (process_manga env e st).1 ∈ [Outcome.Added, Outcome.Resynced, Outcome.Failed]) ∧
    (∀ (env : Env) (entries : List Entry) (st : SyncSt),
      ((dispatch_loop env entries st init_summary).1).added +
        ((dispatch_loop env entries st init_summary).1).resynced +
        ((dispatch_loop env entries st init_summary).1).failedTitles.length = entries.length ∧
      ((dispatch_loop env entries st init_summary).1).skipped = 0) := by
  constructor
  · intro env e st
    have h := process_not_skipped env e st
    cases hoc : (process_manga env e st).1 with
    | Added => simp
    | Resynced => simp
    | Failed => simp
    | Skipped => exact absurd hoc h
  · intro env entries st
    have h := dispatch_counts env entries st init_summary
    simpa [init_summary] using h

/-- C6: after a resolution that succeeds via remote search (no cache hit),
every candidate title, case-folded, maps in the updated cache to the
returned id. -/
theorem C6_remote_writeback (env : Env) (cache : Cache) (ts : Titles) (mid : String)
    (hmiss : cacheProbe cache ts.valuesList = none)
    (hres : (find_mangadex_manga env cache ts).result = some mid) :
    ∀ t ∈ titles_to_try ts,
      ((find_mangadex_manga env cache ts).cache).lookup (lowerStr t) = some mid := by
  intro t ht
  rw [find_of_miss env cache ts hmiss] at hres ⊢
  rw [searchTitles_cache_of_some env (titles_to_try ts) (titles_to_try ts) cache mid hres]
  exact lookup_writeAll_mem mid (titles_to_try ts) cache t ht

/-- C6 witness: a concrete remote-search success writes both candidate
titles back. -/
theorem C6_witness :
    (cacheProbe [] (Titles.mk (some ("Beta")) (some ("Alpha")) none).valuesList = none) ∧
    ((find_mangadex_manga envHit []
      (Titles.mk (some ("Beta")) (some ("Alpha")) none)).result = some ("X")) ∧
    (∀ t ∈ titles_to_try (Titles.mk (some ("Beta")) (some ("Alpha")) none),
      ((find_mangadex_manga envHit []
        (Titles.mk (some ("Beta")) (some ("Alpha")) none)).cache).lookup (lowerStr t)
        = some ("X")) :=
  ⟨by decide, by decide,
    C6_remote_writeback envHit [] (Titles.mk (some ("Beta")) (some ("Alpha")) none) ("X")
      (by decide) (by decide)⟩

/-- C2: with no cache hit, the resolver's result is exactly the first
result id of the first non-empty search reply over the spec's ordered
query list (english, romaji, native, each under the four transforms in
order), and it is None iff every combination yields no result. -/
theorem C2_search_algorithm (env : Env) (cache : Cache) (ts : Titles)
    (hmiss : cacheProbe cache ts.valuesList = none) :
    (find_mangadex_manga env cache ts).result = first_result env (spec_queries ts) ∧
    ((find_mangadex_manga env cache ts).result = none ↔
      ∀ q ∈ spec_queries ts, (env.search q 5).ok = false ∨ (env.search q 5).data = []) := by
  have heq : spec_queries ts =
      (titles_to_try ts).flatMap (fun t => search_strategies.map (fun f => f t)) := rfl
  have h1 : (find_mangadex_manga env cache ts).result = first_result env (spec_queries ts) := by
    rw [find_of_miss env cache ts hmiss, heq]
    exact searchTitles_result env (titles_to_try ts) (titles_to_try ts) cache
  exact ⟨h1, by rw [h1]; exact first_result_eq_none_iff env (spec_queries ts)⟩

/-- C2 witness: the refinement at a concrete environment where only the
lower-cased query hits. -/
theorem C2_witness :
    (cacheProbe [] (Titles.mk none (some ("Naruto")) none).valuesList = none) ∧
    ((find_mangadex_manga envNaruto [] (Titles.mk none (some ("Naruto")) none)).result =
      first_result envNaruto (spec_queries (Titles.mk none (some ("Naruto")) none))) ∧
    ((find_mangadex_manga envNaruto [] (Titles.mk none (some ("Naruto")) none)).result =
      some ("NID")) := by
  have h := C2_search_algorithm envNaruto [] (Titles.mk none (some ("Naruto")) none) (by decide)
  exact ⟨by decide, h.1, by decide⟩

/-- C7: the target-list fetcher stops on a non-success response, an empty
page, or a page shorter than the page size 100 (keeping what was
accumulated, the short page included), continues on full pages; each item
with a truthy id and titles registers its id and indexes its non-empty
titles case-folded, and items missing titles or ids are skipped without
failing. -/
theorem C7_target_list_fetcher :
    (∀ (rest : List (Option (List PageItem))) (acc : List String × Cache),
      get_current_mangadex_list (none :: rest) acc = acc) ∧
    (∀ (rest : List (Option (List PageItem))) (acc : List String × Cache),
      get_current_mangadex_list (some [] :: rest) acc = acc) ∧
    (∀ (data : List PageItem) (rest : List (Option (List PageItem)))
        (acc : List String × Cache), data ≠ [] → data.length < 100 →
      get_current_mangadex_list (some data :: rest) acc = data.foldl process_item acc) ∧
    (∀ (data : List PageItem) (rest : List (Option (List PageItem)))
        (acc : List String × Cache), 100 ≤ data.length →
      get_current_mangadex_list (some data :: rest) acc =
        get_current_mangadex_list rest (data.foldl process_item acc)) ∧
    (∀ (acc : List String × Cache) (it : PageItem) (mid : String),
      it.id = some mid → mid ≠ "" → it.titles ≠ [] →
      mid ∈ (process_item acc it).1 ∧
      ∀ t ∈ it.titles, t ≠ "" →
        ((process_item acc it).2).lookup (lowerStr t) = some mid) ∧
    (∀ (acc : List String × Cache) (it : PageItem),
      (it.id = none ∨ it.id = some "" ∨ it.titles = []) → process_item acc it = acc) := by
  refine ⟨fun rest acc => rfl, fun rest acc => rfl, ?_, ?_, ?_, ?_⟩
  · intro data rest acc hne hlt
    cases data with
    | nil => exact absurd rfl hne
    | cons d ds =>
      simp only [get_current_mangadex_list]
      rw [if_neg (by simp : ¬((d :: ds).isEmpty = true)), if_pos hlt]
  · intro data rest acc hge
    cases data with
    | nil => simp at hge
    | cons d ds =>
      have hnl : ¬ (d :: ds).length < 100 := not_lt.mpr hge
      simp only [get_current_mangadex_list]
      rw [if_neg (by simp : ¬((d :: ds).isEmpty = true)), if_neg hnl]
  · intro acc it mid hid hmid htitles
    simp only [process_item, hid]
    rw [if_pos ⟨hmid, htitles⟩]
    constructor
    · by_cases hm : mid ∈ acc.1 <;> simp [hm]
    · intro t ht htne
      exact lookup_itemfold_mem mid it.titles acc.2 t ht htne
  · intro acc it h
    rcases h with h | h | h
    · simp [process_item, h]
    · simp [process_item, h]
    · cases hid : it.id with
      | none => simp [process_item, hid]
      | some m => simp [process_item, hid, h]

/-- C7 witness: all fetcher behaviours at concrete pages and items. -/
theorem C7_witness :
    (get_current_mangadex_list [none] acc0 = acc0) ∧
    (get_current_mangadex_list [some []] acc0 = acc0) ∧
    (get_current_mangadex_list [some pageA] acc0 = pageA.foldl process_item acc0) ∧
    (get_current_mangadex_list [some bigPage] acc0 =
      get_current_mangadex_list [] (bigPage.foldl process_item acc0)) ∧
    (("M") ∈ (process_item acc0 itemB).1) ∧
    (((process_item acc0 itemB).2).lookup (lowerStr ("T")) = some ("M")) ∧
    (process_item acc0 itemC = acc0) := by
  have h := C7_target_list_fetcher
  have h5 := h.2.2.2.2.1 acc0 itemB ("M") rfl (by decide) (by decide)
  exact ⟨h.1 [] acc0, h.2.1 [] acc0,
    h.2.2.1 pageA [] acc0 (by decide) (by decide),
    h.2.2.2.1 bigPage [] acc0 (by decide),
    h5.1, h5.2 ("T") (by decide) (by decide),
    h.2.2.2.2.2 acc0 itemC (Or.inl rfl)⟩

/-- C9 witness: the partition and count law at a concrete one-entry run. -/
theorem C9_witness :
    ((process_manga envNaruto entryW st0).1 ∈
      [Outcome.Added, Outcome.Resynced, Outcome.Failed]) ∧
    ((dispatch_loop envNaruto [entryW] st0 init_summary).1).added +
      ((dispatch_loop envNaruto [entryW] st0 init_summary).1).resynced +
      ((dispatch_loop envNaruto [entryW] st0 init_summary).1).failedTitles.length = 1 ∧
    ((dispatch_loop envNaruto [entryW] st0 init_summary).1).skipped = 0 := by
  have h := C9_outcome_partition
  exact ⟨h.1 envNaruto entryW st0, (h.2 envNaruto [entryW] st0).1, (h.2 envNaruto [entryW] st0).2⟩
